import Mathlib

/-!
Verification of the Otterscan transaction call-trace recorder.

Shallow embedding of `turbo/jsonrpc/otterscan_trace_transaction.go`
(package `jsonrpc`), the `TransactionTracer` state machine that rebuilds a
structured call trace from the EVM tracer callbacks `CaptureStart`,
`CaptureEnter`, `CaptureExit` and `CaptureEnd`.

Modelling choices, all driven by the Go source:

* Go's `*TraceEntry` pointers are shared between the `Results` slice and the
  `stack` slice; the mutation `pop.Output = outputCopy` in `captureEndOrExit`
  is visible through both.  We model this aliasing with an index-stable
  arena: the field `entries` holds every `TraceEntry` ever allocated, in
  allocation order, and `Results`/`stack` hold indices into it.  Mutating an
  entry is `setOutput` on the arena, so the update is observed by every
  holder of the index, exactly as the pointer mutation is in Go.
* Go panics (nil-map/slice indexing such as `t.Results[len(t.Results)-1]` on
  an empty slice, or `t.stack[-1]`) are modelled by the operations returning
  `none`.
* `vm.OpCode` is a byte; we keep it as a `Nat` with the concrete byte values
  of the opcodes the source names, so that "any other opcode" is expressible.
* Byte slices are `List Nat`; a nil slice (Go `nil`) is distinguished from a
  present one by `Option`.  `uint256.Int` values are `Nat` (no arithmetic is
  performed on them); a possibly-nil `*uint256.Int` is `Option Nat`.
* `t.depth` is a Go `int` and can become negative (the final `CaptureEnd`
  decrements it to `-1`), so it is an `Int`.
-/

set_option autoImplicit false
set_option linter.unusedVariables false

abbrev Address := Nat

abbrev Bytes := List Nat

namespace vm

/-- EVM opcode, a byte (`vm.OpCode` in `core/vm`). -/
abbrev OpCode := Nat

def CREATE : OpCode := 0xF0

def CALL : OpCode := 0xF1

def CALLCODE : OpCode := 0xF2

def DELEGATECALL : OpCode := 0xF4

def CREATE2 : OpCode := 0xF5

def STATICCALL : OpCode := 0xFA

def SELFDESTRUCT : OpCode := 0xFF

end vm

/-- One element of the trace, Go struct `TraceEntry`.  The Go field `Type`
is called `Typ` here because `Type` is reserved in Lean.  `Value`, `Input`
and `Output` are nilable in Go (`*hexutil.Big`, `hexutil.Bytes`), hence
`Option`. -/
structure TraceEntry where
  Typ : String
  Depth : Int
  From : Address
  To : Address
  Value : Option Nat
  Input : Option Bytes
  Output : Option Bytes
deriving DecidableEq, Repr

/-- The recorder state, Go struct `TransactionTracer`.  `entries` is the
allocation arena (see the module docstring); `Results` and `stack` are the
Go slices of pointers, represented as lists of arena indices. -/
structure TransactionTracer where
  entries : List TraceEntry
  Results : List Nat
  depth : Int
  stack : List Nat
deriving DecidableEq, Repr

/-- Go `NewTransactionTracer`: empty results, empty stack, depth `0`. -/
def NewTransactionTracer : TransactionTracer :=
  { entries := [], Results := [], depth := 0, stack := [] }

/-- Models `uint256.Int.ToBig` of the `github.com/holiman/uint256`
dependency, applied to a possibly-nil receiver as the source does in the
`CREATE`, `CREATE2`, `SELFDESTRUCT` and fallback arms:
`(*hexutil.Big)(value.ToBig())`.  The library's `ToBig` is documented
"Return `nil` if z is nil" and checks `if z == nil { return nil }`, so a
nil pointer yields a nil `*big.Int`, hence an absent `Value`. -/
def uint256ToBig : Option Nat → Option Nat
  | none => none
  | some v => some v

/-- The Go expression `_value` of `captureStartOrEnter`: a fresh zero
`big.Int`, overwritten with a copy of `value` when the pointer is non-nil.
Note the result is always a present (non-nil) big integer. -/
def zeroOrValue : Option Nat → Nat
  | none => 0
  | some v => v

/-- The `var entry *TraceEntry; if typ == vm.CALL { ... } else if ...` chain
of `captureStartOrEnter`, which only constructs the entry.  `none` models
the panic of `last := t.Results[len(t.Results)-1]` when `Results` is empty
(Go: index out of range -1).  The inner arena lookup cannot fail for states
built by the operations (every index stored in `Results` is allocated), it
is an artifact of replacing Go pointers by arena indices. -/
def mkEntry (t : TransactionTracer) (typ : vm.OpCode) (f To : Address)
    (input : Bytes) (value : Option Nat) : Option TraceEntry :=
  let inputCopy := input
  let bigv := zeroOrValue value
  if typ = vm.CALL then
    some ⟨"CALL", t.depth, f, To, some bigv, some inputCopy, none⟩
  else if typ = vm.STATICCALL then
    some ⟨"STATICCALL", t.depth, f, To, none, some inputCopy, none⟩
  else if typ = vm.DELEGATECALL then
    some ⟨"DELEGATECALL", t.depth, f, To, none, some inputCopy, none⟩
  else if typ = vm.CALLCODE then
    some ⟨"CALLCODE", t.depth, f, To, some bigv, some inputCopy, none⟩
  else if typ = vm.CREATE then
    some ⟨"CREATE", t.depth, f, To, uint256ToBig value, some inputCopy, none⟩
  else if typ = vm.CREATE2 then
    some ⟨"CREATE2", t.depth, f, To, uint256ToBig value, some inputCopy, none⟩
  else if typ = vm.SELFDESTRUCT then
    match t.Results.getLast? with
    | none => none
    | some lastIdx =>
      match t.entries[lastIdx]? with
      | none => none
      | some last =>
        some ⟨"SELFDESTRUCT", last.Depth + 1, f, To, uint256ToBig value,
          none, none⟩
  else
    some ⟨"UNKNOWN", t.depth, f, To, uint256ToBig value, some inputCopy, none⟩

/-- The tail of `captureStartOrEnter` (lines 101-108): append the entry to
`Results` unless the target is a precompile, and push it onto `stack`
unconditionally. -/
def appendEntry (t : TransactionTracer) (precompile : Bool)
    (entry : TraceEntry) : TransactionTracer :=
  let idx := t.entries.length
  { entries := t.entries ++ [entry]
    Results := if !precompile then t.Results ++ [idx] else t.Results
    depth := t.depth
    stack := t.stack ++ [idx] }

/-- Go `(*TransactionTracer).captureStartOrEnter`. -/
def captureStartOrEnter (t : TransactionTracer) (typ : vm.OpCode)
    (f To : Address) (precompile : Bool) (input : Bytes)
    (value : Option Nat) : Option TransactionTracer :=
  match mkEntry t typ f To input value with
  | none => none
  | some entry => some (appendEntry t precompile entry)

/-- Go `CaptureStart`: reset `depth` to `0`, then open a `CALL` frame.  The
`env`, `create`, `gas` and `code` arguments are unused by the source but
kept for interface fidelity. -/
def CaptureStart (t : TransactionTracer) (env : Unit) (f To : Address)
    (precompile create : Bool) (input : Bytes) (gas : Nat)
    (value : Option Nat) (code : Bytes) : Option TransactionTracer :=
  captureStartOrEnter { t with depth := 0 } vm.CALL f To precompile input value

/-- Go `CaptureEnter`: increment `depth`, then open a frame of kind `typ`. -/
def CaptureEnter (t : TransactionTracer) (typ : vm.OpCode) (f To : Address)
    (precompile create : Bool) (input : Bytes) (gas : Nat)
    (value : Option Nat) (code : Bytes) : Option TransactionTracer :=
  captureStartOrEnter { t with depth := t.depth + 1 } typ f To precompile
    input value

/-- Assign `Output := some out` to the arena entry at index `i` (the Go
pointer mutation `pop.Output = outputCopy`). -/
def setOutput : List TraceEntry → Nat → Bytes → List TraceEntry
  | [], _, _ => []
  | e :: es, 0, out => { e with Output := some out } :: es
  | e :: es, Nat.succ n, out => e :: setOutput es n out

/-- Go `(*TransactionTracer).captureEndOrExit`: decrement `depth`, pop the
top of `stack` (`none` models the `t.stack[-1]` index-out-of-range panic on
an empty stack), copy the output bytes into the popped entry.  `usedGas`
and `err` are ignored by the source. -/
def captureEndOrExit (t : TransactionTracer) (output : Bytes) (usedGas : Nat)
    (err : Option String) : Option TransactionTracer :=
  let t1 := { t with depth := t.depth - 1 }
  match t1.stack.getLast? with
  | none => none
  | some popIdx =>
    let outputCopy := output
    some { t1 with
      stack := t1.stack.dropLast
      entries := setOutput t1.entries popIdx outputCopy }

/-- Go `CaptureExit`, delegates to `captureEndOrExit`. -/
def CaptureExit (t : TransactionTracer) (output : Bytes) (usedGas : Nat)
    (err : Option String) : Option TransactionTracer :=
  captureEndOrExit t output usedGas err

/-- Go `CaptureEnd`, delegates to `captureEndOrExit`. -/
def CaptureEnd (t : TransactionTracer) (output : Bytes) (usedGas : Nat)
    (err : Option String) : Option TransactionTracer :=
  captureEndOrExit t output usedGas err

/-- The visible output sequence: the `Results` slice with its pointers
dereferenced into the arena. -/
def visibleResults (t : TransactionTracer) : List TraceEntry :=
  t.Results.filterMap (fun i => t.entries[i]?)

/-- One lifecycle notification from the execution engine, i.e. one call to
one of the four tracer capabilities, with its arguments. -/
inductive Notification where
  | onStart (f To : Address) (precompile create : Bool) (input : Bytes)
      (gas : Nat) (value : Option Nat) (code : Bytes)
  | onEnter (typ : vm.OpCode) (f To : Address) (precompile create : Bool)
      (input : Bytes) (gas : Nat) (value : Option Nat) (code : Bytes)
  | onExit (output : Bytes) (usedGas : Nat) (err : Option String)
  | onEnd (output : Bytes) (usedGas : Nat) (err : Option String)
deriving DecidableEq, Repr

/-- Dispatch one notification to the corresponding tracer method. -/
def stepN (t : TransactionTracer) : Notification → Option TransactionTracer
  | .onStart f To pc cr input gas value code =>
      CaptureStart t () f To pc cr input gas value code
  | .onEnter typ f To pc cr input gas value code =>
      CaptureEnter t typ f To pc cr input gas value code
  | .onExit output usedGas err => CaptureExit t output usedGas err
  | .onEnd output usedGas err => CaptureEnd t output usedGas err

/-- Run the recorder over a whole notification stream; `none` as soon as
one step panics. -/
def runList (t : TransactionTracer) : List Notification →
    Option TransactionTracer
  | [] => some t
  | n :: ns =>
    match stepN t n with
    | none => none
    | some t' => runList t' ns

/-- A notification that opens a frame (`onStart` or `onEnter`). -/
def isOpen : Notification → Bool
  | .onStart .. => true
  | .onEnter .. => true
  | .onExit .. => false
  | .onEnd .. => false

/-- A notification that is an `onStart`. -/
def isStart : Notification → Bool
  | .onStart .. => true
  | _ => false

/-- Number of frame-opening notifications in a stream. -/
def countOpens : List Notification → Nat
  | [] => 0
  | n :: ns => (if isOpen n then 1 else 0) + countOpens ns

/-- Number of frame-closing notifications in a stream. -/
def countCloses : List Notification → Nat
  | [] => 0
  | n :: ns => (if isOpen n then 0 else 1) + countCloses ns

/-- No `onStart` occurs in the stream. -/
def noStart (ns : List Notification) : Bool :=
  ns.all (fun n => !isStart n)

/-! ## Helper lemmas -/

/-- The function `setOutput` does not change the arena's length. -/
theorem setOutput_length (l : List TraceEntry) (i : Nat) (out : Bytes) :
    (setOutput l i out).length = l.length := by
  induction l generalizing i with
  | nil => rfl
  | cons e es ih =>
    cases i with
    | zero => rfl
    | succ n => simpa [setOutput] using ih n

/-- Applying `setOutput` at index `i` replaces exactly the `Output` field there. -/
theorem setOutput_getElem_self (l : List TraceEntry) (i : Nat) (out : Bytes)
    (e : TraceEntry) (h : l[i]? = some e) :
    (setOutput l i out)[i]? = some { e with Output := some out } := by
  induction l generalizing i with
  | nil => simp at h
  | cons a as ih =>
    cases i with
    | zero => simp_all [setOutput]
    | succ n =>
      simp only [List.getElem?_cons_succ] at h
      simpa [setOutput] using ih n h

/-- Applying `setOutput` preserves existence, `Depth` and `Typ` at every index. -/
theorem setOutput_preserves (l : List TraceEntry) (i : Nat) (out : Bytes)
    (j : Nat) (e : TraceEntry) (h : l[j]? = some e) :
    ∃ e', (setOutput l i out)[j]? = some e' ∧ e'.Depth = e.Depth ∧
      e'.Typ = e.Typ := by
  induction l generalizing i j with
  | nil => simp at h
  | cons a as ih =>
    cases i with
    | zero =>
      cases j with
      | zero => exact ⟨{ a with Output := some out }, by simp_all [setOutput]⟩
      | succ m =>
        simp only [List.getElem?_cons_succ] at h
        exact ⟨e, by simp_all [setOutput]⟩
    | succ n =>
      cases j with
      | zero => exact ⟨a, by simp_all [setOutput]⟩
      | succ m =>
        simp only [List.getElem?_cons_succ] at h
        obtain ⟨e', h1, h2, h3⟩ := ih n m h
        exact ⟨e', by simpa [setOutput] using h1, h2, h3⟩

/-! ## Claims -/

/-- C6: the notification sequence `onStart(A→B)`, `onEnter(Call, B→C)`,
`onExit(output=[1,2])`, `onEnd(output=[])` produces exactly two visible
entries in order — a depth-0 `CALL` A→B with output `[]` and a depth-1
`CALL` B→C with output `[1,2]` — and leaves the pending stack empty. -/
theorem claim_C6 :
    (runList NewTransactionTracer
      [Notification.onStart 10 11 false false [] 0 none [],
       Notification.onEnter vm.CALL 11 12 false false [] 0 none [],
       Notification.onExit [1, 2] 0 none,
       Notification.onEnd [] 0 none]).map
        (fun t => (visibleResults t, t.stack)) =
      some ([⟨"CALL", 0, 10, 11, some 0, some [], some []⟩,
             ⟨"CALL", 1, 11, 12, some 0, some [], some [1, 2]⟩], []) := by
  decide

/-- C7: an `onEnter` of kind `STATICCALL` or `DELEGATECALL` constructs an
entry whose `Value` field is absent (`none`), no matter which value
argument `v` was supplied with the notification. -/
theorem claim_C7 (t : TransactionTracer) (f To : Address) (pc cr : Bool)
    (inp : Bytes) (g : Nat) (v : Option Nat) (cd : Bytes) :
    CaptureEnter t vm.STATICCALL f To pc cr inp g v cd =
      some (appendEntry { t with depth := t.depth + 1 } pc
        ⟨"STATICCALL", t.depth + 1, f, To, none, some inp, none⟩) ∧
    CaptureEnter t vm.DELEGATECALL f To pc cr inp g v cd =
      some (appendEntry { t with depth := t.depth + 1 } pc
        ⟨"DELEGATECALL", t.depth + 1, f, To, none, some inp, none⟩) :=
  ⟨rfl, rfl⟩

/-- C9: if a `SELFDESTRUCT` enter-notification arrives while the visible
output sequence `Results` is empty, the recorder reads
`t.Results[len(t.Results)-1]` out of range and panics (modelled as `none`):
a non-empty output sequence is an unstated precondition of self-destruct
handling. -/
theorem claim_C9 (t : TransactionTracer) (f To : Address) (pc cr : Bool)
    (inp : Bytes) (g : Nat) (v : Option Nat) (cd : Bytes)
    (h : t.Results = []) :
    CaptureEnter t vm.SELFDESTRUCT f To pc cr inp g v cd = none := by
  simp [CaptureEnter, captureStartOrEnter, mkEntry, h, vm.SELFDESTRUCT,
    vm.CALL, vm.STATICCALL, vm.DELEGATECALL, vm.CALLCODE, vm.CREATE,
    vm.CREATE2]

/-- Witness for C9 at the freshly created recorder. -/
theorem claim_C9_witness :
    CaptureEnter NewTransactionTracer vm.SELFDESTRUCT 1 2 false false [] 0
      (some 3) [] = none :=
  claim_C9 NewTransactionTracer 1 2 false false [] 0 (some 3) [] rfl

/-- C10: `captureEndOrExit` ignores `usedGas` and `err` entirely — closing
with different gas numbers and different error values from the same state
and output bytes yields identical recorder states, through `CaptureExit`
and `CaptureEnd` alike (a failed call is finalized exactly like a
successful one). -/
theorem claim_C10 (t : TransactionTracer) (out : Bytes) (g1 g2 : Nat)
    (e1 e2 : Option String) :
    captureEndOrExit t out g1 e1 = captureEndOrExit t out g2 e2 ∧
    CaptureExit t out g1 e1 = captureEndOrExit t out g2 e2 ∧
    CaptureEnd t out g1 e1 = captureEndOrExit t out g2 e2 :=
  ⟨rfl, rfl, rfl⟩

/-- C2: any `onEnter` whose opcode is none of the seven recognized kinds —
whatever the value argument, present or absent — produces an
`UNKNOWN`-tagged entry via the same `appendEntry` tail as every recognized
kind (pushed onto the pending stack, appended to `Results` unless
precompile), and the recorder does not crash. -/
theorem claim_C2 (t : TransactionTracer) (typ : vm.OpCode) (f To : Address)
    (pc cr : Bool) (inp : Bytes) (g : Nat) (v : Option Nat) (cd : Bytes)
    (h1 : typ ≠ vm.CALL) (h2 : typ ≠ vm.STATICCALL)
    (h3 : typ ≠ vm.DELEGATECALL) (h4 : typ ≠ vm.CALLCODE)
    (h5 : typ ≠ vm.CREATE) (h6 : typ ≠ vm.CREATE2)
    (h7 : typ ≠ vm.SELFDESTRUCT) :
    CaptureEnter t typ f To pc cr inp g v cd =
      some (appendEntry { t with depth := t.depth + 1 } pc
        ⟨"UNKNOWN", t.depth + 1, f, To, uint256ToBig v, some inp, none⟩) := by
  simp [CaptureEnter, captureStartOrEnter, mkEntry, h1, h2, h3, h4, h5, h6, h7]

/-- Witness for C2: opcode `0xFE` (`INVALID`, unrecognized) with an absent
value argument at the fresh recorder. -/
theorem claim_C2_witness :
    CaptureEnter NewTransactionTracer 0xFE 1 2 false false [3] 0 none [] =
      some (appendEntry ⟨[], [], 1, []⟩ false
        ⟨"UNKNOWN", 1, 1, 2, none, some [3], none⟩) :=
  claim_C2 NewTransactionTracer 0xFE 1 2 false false [3] 0 none []
    (by decide) (by decide) (by decide) (by decide) (by decide) (by decide)
    (by decide)

/-- C8 counterexample: the claim asserts that an absent value on `CREATE`
is "a caller contract violation that is not handled defensively", i.e.
that the open procedure is not total there.  In fact `uint256.Int.ToBig`
returns nil for a nil receiver, so `CaptureEnter` with `value = none` on
`CREATE` succeeds and simply records an absent `Value` — it does not
fail. -/
theorem claim_C8_counterexample :
    CaptureEnter NewTransactionTracer vm.CREATE 1 2 false false [3] 0 none
      [] = some ⟨[⟨"CREATE", 1, 1, 2, none, some [3], none⟩], [0], 1, [0]⟩ := by
  decide

/-- C8 amended: a `CREATE`/`CREATE2` enter with a present value records an
owned copy of that value; with an absent value it also succeeds, recording
an absent `Value` (the library maps a nil pointer to a nil big integer), so
a present value pointer is not a precondition. -/
theorem claim_C8_amended (t : TransactionTracer) (f To : Address)
    (pc cr : Bool) (inp : Bytes) (g : Nat) (v : Nat) (cd : Bytes) :
    CaptureEnter t vm.CREATE f To pc cr inp g (some v) cd =
      some (appendEntry { t with depth := t.depth + 1 } pc
        ⟨"CREATE", t.depth + 1, f, To, some v, some inp, none⟩) ∧
    CaptureEnter t vm.CREATE2 f To pc cr inp g (some v) cd =
      some (appendEntry { t with depth := t.depth + 1 } pc
        ⟨"CREATE2", t.depth + 1, f, To, some v, some inp, none⟩) ∧
    CaptureEnter t vm.CREATE f To pc cr inp g none cd =
      some (appendEntry { t with depth := t.depth + 1 } pc
        ⟨"CREATE", t.depth + 1, f, To, none, some inp, none⟩) ∧
    CaptureEnter t vm.CREATE2 f To pc cr inp g none cd =
      some (appendEntry { t with depth := t.depth + 1 } pc
        ⟨"CREATE2", t.depth + 1, f, To, none, some inp, none⟩) :=
  ⟨rfl, rfl, rfl, rfl⟩

/-- C1 counterexample: the claim says a self-destruct entry "is never
pushed onto the pending stack, and ... never receives an output value".
Running the recorder on a start followed by a `SELFDESTRUCT`
enter-notification (with a non-empty output sequence), the stack afterwards
is `[0, 1]` — index `1` is the self-destruct entry, so it was pushed — and
after the matching `onExit([9])`/`onEnd([])` pair the self-destruct entry's
`Output` is `some [9]`: it received an output value. -/
theorem claim_C1_counterexample :
    (runList NewTransactionTracer
      [Notification.onStart 10 11 false false [] 0 (some 5) [],
       Notification.onEnter vm.SELFDESTRUCT 11 12 false false [] 0
         (some 7) []]).map (fun t => t.stack) = some [0, 1] ∧
    (runList NewTransactionTracer
      [Notification.onStart 10 11 false false [] 0 (some 5) [],
       Notification.onEnter vm.SELFDESTRUCT 11 12 false false [] 0
         (some 7) [],
       Notification.onExit [9] 0 none,
       Notification.onEnd [] 0 none]).map
        (fun t => t.entries[1]?.map TraceEntry.Output) =
      some (some (some [9])) := by
  constructor <;> rfl

/-- C1 amended: a self-destruct notification received while the output
sequence is non-empty (target not precompiled) appends directly to the
output sequence a `SELFDESTRUCT` entry at the last visible entry's depth
plus one, with absent input — but the entry is also pushed onto the pending
stack, exactly like every other entry, so the matching close notification
pops it and assigns it an output value. -/
theorem claim_C1_amended (t : TransactionTracer) (f To : Address)
    (inp : Bytes) (v : Option Nat) (li : Nat) (last : TraceEntry)
    (hl : t.Results.getLast? = some li) (he : t.entries[li]? = some last)
    (s' : TransactionTracer)
    (h : captureStartOrEnter t vm.SELFDESTRUCT f To false inp v = some s') :
    s'.entries = t.entries ++
      [⟨"SELFDESTRUCT", last.Depth + 1, f, To, uint256ToBig v, none, none⟩] ∧
    s'.Results = t.Results ++ [t.entries.length] ∧
    s'.stack = t.stack ++ [t.entries.length] ∧
    s'.depth = t.depth := by
  simp only [captureStartOrEnter, mkEntry, hl, he] at h
  norm_num [vm.SELFDESTRUCT, vm.CALL, vm.STATICCALL, vm.DELEGATECALL,
    vm.CALLCODE, vm.CREATE, vm.CREATE2] at h
  subst h
  simp [appendEntry]

/-- Witness for C1 amended: recorder holding one visible depth-0 entry,
hit with a `SELFDESTRUCT` notification. -/
theorem claim_C1_amended_witness :
    (⟨[⟨"CALL", 0, 10, 11, some 5, some [], none⟩,
       ⟨"SELFDESTRUCT", 1, 11, 12, some 7, none, none⟩], [0, 1], 0,
      [0, 1]⟩ : TransactionTracer).entries =
      [⟨"CALL", 0, 10, 11, some 5, some [], none⟩] ++
        [⟨"SELFDESTRUCT", 1, 11, 12, some 7, none, none⟩] ∧
    (⟨[⟨"CALL", 0, 10, 11, some 5, some [], none⟩,
       ⟨"SELFDESTRUCT", 1, 11, 12, some 7, none, none⟩], [0, 1], 0,
      [0, 1]⟩ : TransactionTracer).Results = [0] ++ [1] ∧
    (⟨[⟨"CALL", 0, 10, 11, some 5, some [], none⟩,
       ⟨"SELFDESTRUCT", 1, 11, 12, some 7, none, none⟩], [0, 1], 0,
      [0, 1]⟩ : TransactionTracer).stack = [0] ++ [1] ∧
    (⟨[⟨"CALL", 0, 10, 11, some 5, some [], none⟩,
       ⟨"SELFDESTRUCT", 1, 11, 12, some 7, none, none⟩], [0, 1], 0,
      [0, 1]⟩ : TransactionTracer).depth = 0 :=
  claim_C1_amended
    ⟨[⟨"CALL", 0, 10, 11, some 5, some [], none⟩], [0], 0, [0]⟩ 11 12 []
    (some 7) 0 ⟨"CALL", 0, 10, 11, some 5, some [], none⟩ rfl rfl _ rfl

/-- C3: closing a call with the pending stack empty fails (`none`, the Go
index-out-of-range panic — the operation does not proceed or patch state);
closing with a non-empty stack pops the top frame, decrements `depth` by
one, and assigns a copy of the output bytes to the popped frame's `Output`
field. -/
theorem claim_C3 (t : TransactionTracer) (out : Bytes) (g : Nat)
    (err : Option String) :
    (t.stack = [] → captureEndOrExit t out g err = none) ∧
    (∀ i en, t.stack.getLast? = some i → t.entries[i]? = some en →
      captureEndOrExit t out g err =
        some { entries := setOutput t.entries i out, Results := t.Results,
               depth := t.depth - 1, stack := t.stack.dropLast } ∧
      (setOutput t.entries i out)[i]? =
        some { en with Output := some out }) := by
  constructor
  · intro h
    simp [captureEndOrExit, h]
  · intro i en hi he
    refine ⟨by simp [captureEndOrExit, hi], ?_⟩
    exact setOutput_getElem_self t.entries i out en he

/-- Witness for C3: the empty-stack half at the fresh recorder, and the
pop half at a recorder holding one open frame. -/
theorem claim_C3_witness :
    captureEndOrExit NewTransactionTracer [] 0 none = none ∧
    captureEndOrExit
      (⟨[⟨"CALL", 0, 10, 11, some 5, some [], none⟩], [0], 0, [0]⟩ :
        TransactionTracer) [7] 3 none =
      some { entries := setOutput [⟨"CALL", 0, 10, 11, some 5, some [], none⟩]
               0 [7],
             Results := [0], depth := (0 : Int) - 1,
             stack := ([0] : List Nat).dropLast } ∧
    (setOutput [⟨"CALL", 0, 10, 11, some 5, some [], none⟩] 0 [7])[0]? =
      some ⟨"CALL", 0, 10, 11, some 5, some [], some [7]⟩ :=
  ⟨(claim_C3 NewTransactionTracer [] 0 none).1 rfl,
   ((claim_C3 ⟨[⟨"CALL", 0, 10, 11, some 5, some [], none⟩], [0], 0, [0]⟩
      [7] 3 none).2 0 ⟨"CALL", 0, 10, 11, some 5, some [], none⟩ rfl rfl).1,
   ((claim_C3 ⟨[⟨"CALL", 0, 10, 11, some 5, some [], none⟩], [0], 0, [0]⟩
      [7] 3 none).2 0 ⟨"CALL", 0, 10, 11, some 5, some [], none⟩ rfl rfl).2⟩

/-- C4: opening a call whose target is a precompile (any kind, start or
enter both go through `captureStartOrEnter`) leaves the visible output
sequence unchanged, pushes the new entry's index onto the pending stack,
allocates exactly one entry, and leaves `depth` untouched.  The hypothesis
`hv` (every `Results` index is allocated) holds for every state reachable
from `NewTransactionTracer`. -/
theorem claim_C4 (t : TransactionTracer) (typ : vm.OpCode) (f To : Address)
    (inp : Bytes) (v : Option Nat)
    (hv : ∀ i ∈ t.Results, i < t.entries.length) (s' : TransactionTracer)
    (h : captureStartOrEnter t typ f To true inp v = some s') :
    s'.Results = t.Results ∧
    s'.stack = t.stack ++ [t.entries.length] ∧
    s'.entries.length = t.entries.length + 1 ∧
    s'.depth = t.depth ∧
    visibleResults s' = visibleResults t := by
  cases hm : mkEntry t typ f To inp v with
  | none => simp [captureStartOrEnter, hm] at h
  | some entry =>
    simp only [captureStartOrEnter, hm, Option.some.injEq] at h
    subst h
    refine ⟨by simp [appendEntry], by simp [appendEntry],
      by simp [appendEntry], by simp [appendEntry], ?_⟩
    simp only [visibleResults, appendEntry]
    exact List.filterMap_congr fun i hi =>
      List.getElem?_append_left (hv i hi)

/-- Witness for C4: a precompiled `CALL` opened on the fresh recorder. -/
theorem claim_C4_witness :
    (⟨[⟨"CALL", 0, 1, 2, some 0, some [3], none⟩], [], 0, [0]⟩ :
        TransactionTracer).Results = NewTransactionTracer.Results ∧
    (⟨[⟨"CALL", 0, 1, 2, some 0, some [3], none⟩], [], 0, [0]⟩ :
        TransactionTracer).stack =
      NewTransactionTracer.stack ++ [NewTransactionTracer.entries.length] ∧
    (⟨[⟨"CALL", 0, 1, 2, some 0, some [3], none⟩], [], 0, [0]⟩ :
        TransactionTracer).entries.length =
      NewTransactionTracer.entries.length + 1 ∧
    (⟨[⟨"CALL", 0, 1, 2, some 0, some [3], none⟩], [], 0, [0]⟩ :
        TransactionTracer).depth = NewTransactionTracer.depth ∧
    visibleResults ⟨[⟨"CALL", 0, 1, 2, some 0, some [3], none⟩], [], 0, [0]⟩ =
      visibleResults NewTransactionTracer :=
  claim_C4 NewTransactionTracer vm.CALL 1 2 [3] none
    (by simp [NewTransactionTracer]) _ rfl

/-- Running a concatenated stream runs the two parts in sequence. -/
theorem runList_append (l1 l2 : List Notification) (t : TransactionTracer) :
    runList t (l1 ++ l2) = (runList t l1).bind fun t' => runList t' l2 := by
  induction l1 generalizing t with
  | nil => simp [runList]
  | cons n ns ih =>
    simp only [List.cons_append, runList]
    cases stepN t n with
    | none => simp
    | some t' => simpa using ih t'

/-- Effects of one successful close: depth down one, stack down one, arena
length unchanged, every entry's `Depth` and `Typ` untouched. -/
theorem captureEndOrExit_effects (t : TransactionTracer) (out : Bytes)
    (g : Nat) (err : Option String) (t' : TransactionTracer)
    (h : captureEndOrExit t out g err = some t') :
    t'.depth = t.depth - 1 ∧ t'.stack.length + 1 = t.stack.length ∧
    t'.entries.length = t.entries.length ∧
    (∀ (i : Nat) (e : TraceEntry), t.entries[i]? = some e →
      ∃ e' : TraceEntry, t'.entries[i]? = some e' ∧
        e'.Depth = e.Depth ∧ e'.Typ = e.Typ) := by
  cases hl : t.stack.getLast? with
  | none => simp [captureEndOrExit, hl] at h
  | some popIdx =>
    simp only [captureEndOrExit, hl, Option.some.injEq] at h
    subst h
    have hne : t.stack ≠ [] := by
      intro he
      rw [he] at hl
      simp at hl
    refine ⟨rfl, ?_, setOutput_length _ _ _, ?_⟩
    · simp only [List.length_dropLast]
      have : 0 < t.stack.length := List.length_pos.mpr hne
      omega
    · intro i e he
      exact setOutput_preserves _ popIdx out i e he

/-- Every entry `mkEntry` constructs either is the self-destruct entry or
records the current `depth` of the recorder. -/
theorem mkEntry_depth_or_sd (t : TransactionTracer) (typ : vm.OpCode)
    (f To : Address) (inp : Bytes) (v : Option Nat) (e : TraceEntry)
    (h : mkEntry t typ f To inp v = some e) :
    e.Typ = "SELFDESTRUCT" ∨ e.Depth = t.depth := by
  unfold mkEntry at h
  split_ifs at h with h1 h2 h3 h4 h5 h6 h7
  · cases h; exact Or.inr rfl
  · cases h; exact Or.inr rfl
  · cases h; exact Or.inr rfl
  · cases h; exact Or.inr rfl
  · cases h; exact Or.inr rfl
  · cases h; exact Or.inr rfl
  · rcases hL : t.Results.getLast? with _ | li
    · simp [hL] at h
    · rcases hE : t.entries[li]? with _ | last
      · simp [hL, hE] at h
      · simp only [hL, hE] at h
        cases h
        exact Or.inl rfl
  · cases h; exact Or.inr rfl

/-- Effects of one successful `CaptureEnter`: depth up one, one entry
allocated at the end of the arena and pushed, old entries untouched, and
the new entry records the incremented depth unless it is a self-destruct
entry. -/
theorem CaptureEnter_effects (t : TransactionTracer) (typ : vm.OpCode)
    (f To : Address) (pc cr : Bool) (inp : Bytes) (g : Nat)
    (v : Option Nat) (cd : Bytes) (t' : TransactionTracer)
    (h : CaptureEnter t typ f To pc cr inp g v cd = some t') :
    t'.depth = t.depth + 1 ∧ t'.stack.length = t.stack.length + 1 ∧
    t'.entries.length = t.entries.length + 1 ∧
    (∀ (i : Nat) (e : TraceEntry), t.entries[i]? = some e →
      t'.entries[i]? = some e) ∧
    (∀ e : TraceEntry, t'.entries[t.entries.length]? = some e →
      e.Typ ≠ "SELFDESTRUCT" → e.Depth = t.depth + 1) ∧
    (∃ e : TraceEntry, t'.entries[t.entries.length]? = some e) := by
  unfold CaptureEnter captureStartOrEnter at h
  cases hm : mkEntry { t with depth := t.depth + 1 } typ f To inp v with
  | none =>
    rw [hm] at h
    exact absurd h (by simp)
  | some entry =>
    rw [hm] at h
    injection h with h
    subst h
    refine ⟨rfl, by simp [appendEntry], by simp [appendEntry], ?_, ?_, ?_⟩
    · intro i e he
      have hi : i < t.entries.length := (List.getElem?_eq_some.mp he).1
      show (t.entries ++ [entry])[i]? = some e
      rw [List.getElem?_append_left hi]
      exact he
    · intro e he hsd
      have hc : (t.entries ++ [entry])[t.entries.length]? = some entry :=
        List.getElem?_concat_length _ _
      have : entry = e := by
        have := hc.symm.trans he
        injection this
      subst this
      rcases mkEntry_depth_or_sd _ _ _ _ _ _ _ hm with hT | hD
      · exact absurd hT hsd
      · exact hD
    · exact ⟨entry, List.getElem?_concat_length _ _⟩

/-- The predicate `noStart` distributes over cons. -/
theorem noStart_cons (n : Notification) (ns : List Notification) :
    noStart (n :: ns) = (!isStart n && noStart ns) := by
  simp [noStart]

/-- The predicate `noStart` distributes over append. -/
theorem noStart_append (l1 l2 : List Notification) :
    noStart (l1 ++ l2) = (noStart l1 && noStart l2) := by
  simp [noStart, List.all_append]

/-- Invariant of a run containing no `onStart`: the arena grows by one
entry per opening notification, the stack balance is opens minus closes,
the `depth = stack length - 1` relation is preserved, and existing entries
keep their `Depth` and `Typ`. -/
theorem runList_inv (ns : List Notification) : ∀ t tF : TransactionTracer,
    noStart ns = true → runList t ns = some tF →
    tF.entries.length = t.entries.length + countOpens ns ∧
    (tF.stack.length : Int) =
      (t.stack.length : Int) + countOpens ns - countCloses ns ∧
    (t.depth = (t.stack.length : Int) - 1 →
      tF.depth = (tF.stack.length : Int) - 1) ∧
    (∀ (i : Nat) (e : TraceEntry), t.entries[i]? = some e →
      ∃ e' : TraceEntry, tF.entries[i]? = some e' ∧
        e'.Depth = e.Depth ∧ e'.Typ = e.Typ) := by
  induction ns with
  | nil =>
    intro t tF _ h
    simp only [runList, Option.some.injEq] at h
    subst h
    exact ⟨by simp [countOpens], by simp [countOpens, countCloses],
      fun hd => hd, fun i e he => ⟨e, he, rfl, rfl⟩⟩
  | cons n ns ih =>
    intro t tF hns hrun
    rw [noStart_cons, Bool.and_eq_true] at hns
    obtain ⟨hn, hns'⟩ := hns
    simp only [runList] at hrun
    cases hs : stepN t n with
    | none =>
      rw [hs] at hrun
      exact absurd hrun (by simp)
    | some t1 =>
      rw [hs] at hrun
      obtain ⟨ih1, ih2, ih3, ih4⟩ := ih t1 tF hns' hrun
      cases n with
      | onStart f To pc cr inp g v cd => simp [isStart] at hn
      | onEnter typ f To pc cr inp g v cd =>
        obtain ⟨e1, e2, e3, e4, e5, e6⟩ :=
          CaptureEnter_effects t typ f To pc cr inp g v cd t1 hs
        refine ⟨?_, ?_, ?_, ?_⟩
        · rw [ih1, e3]
          simp [countOpens, isOpen]
          omega
        · rw [ih2, e2]
          simp [countOpens, countCloses, isOpen]
          push_cast
          ring
        · intro hd
          apply ih3
          rw [e1, e2, hd]
          push_cast
          ring
        · intro i e he
          exact ih4 i e (e4 i e he)
      | onExit out g err =>
        obtain ⟨c1, c2, c3, c4⟩ :=
          captureEndOrExit_effects t out g err t1 hs
        refine ⟨?_, ?_, ?_, ?_⟩
        · rw [ih1, c3]
          simp [countOpens, isOpen]
        · rw [ih2]
          simp only [countOpens, countCloses, isOpen, if_false]
          push_cast
          omega
        · intro hd
          apply ih3
          rw [c1, hd]
          have := c2
          push_cast
          omega
        · intro i e he
          obtain ⟨e', h1, h2, h3⟩ := c4 i e he
          obtain ⟨e'', g1, g2, g3⟩ := ih4 i e' h1
          exact ⟨e'', g1, g2.trans h2, g3.trans h3⟩
      | onEnd out g err =>
        obtain ⟨c1, c2, c3, c4⟩ :=
          captureEndOrExit_effects t out g err t1 hs
        refine ⟨?_, ?_, ?_, ?_⟩
        · rw [ih1, c3]
          simp [countOpens, isOpen]
        · rw [ih2]
          simp only [countOpens, countCloses, isOpen, if_false]
          push_cast
          omega
        · intro hd
          apply ih3
          rw [c1, hd]
          have := c2
          push_cast
          omega
        · intro i e he
          obtain ⟨e', h1, h2, h3⟩ := c4 i e he
          obtain ⟨e'', g1, g2, g3⟩ := ih4 i e' h1
          exact ⟨e'', g1, g2.trans h2, g3.trans h3⟩

/-- C5 amended: in every stream that begins with the single `onStart` and
runs to completion, the initial entry has depth `0`, and every entry
produced by a subsequent opening notification — except self-destruct
entries, which instead record the last visible entry's depth plus one —
records exactly the number of enter-notifications still open at the moment
of its emission, namely the opens minus the closes that precede it. -/
theorem claim_C5_amended (p1 p2 : Address) (pc cr : Bool) (inp : Bytes)
    (g : Nat) (v : Option Nat) (cd : Bytes) (rest : List Notification)
    (hns : noStart rest = true) (sF : TransactionTracer)
    (hrun : runList NewTransactionTracer
      (Notification.onStart p1 p2 pc cr inp g v cd :: rest) = some sF)
    (e0 : TraceEntry) (h0 : sF.entries[0]? = some e0) :
    e0.Depth = 0 ∧
    ∀ (pre : List Notification) (n : Notification)
      (post : List Notification), rest = pre ++ n :: post →
      isOpen n = true → ∀ e : TraceEntry,
      sF.entries[1 + countOpens pre]? = some e →
      e.Typ ≠ "SELFDESTRUCT" →
      e.Depth = (1 + countOpens pre : Int) - countCloses pre := by
  have ht1 : stepN NewTransactionTracer
      (Notification.onStart p1 p2 pc cr inp g v cd) =
      some (appendEntry NewTransactionTracer pc
        ⟨"CALL", 0, p1, p2, some (zeroOrValue v), some inp, none⟩) := rfl
  simp only [runList, ht1] at hrun
  set t1 := appendEntry NewTransactionTracer pc
    ⟨"CALL", 0, p1, p2, some (zeroOrValue v), some inp, none⟩ with ht1def
  have hent1 : t1.entries[0]? =
      some ⟨"CALL", 0, p1, p2, some (zeroOrValue v), some inp, none⟩ := rfl
  have hlen1 : t1.entries.length = 1 := rfl
  have hsl1 : t1.stack.length = 1 := rfl
  have hd1 : t1.depth = (t1.stack.length : Int) - 1 := by
    rw [hsl1]
    rfl
  constructor
  · obtain ⟨-, -, -, hpres⟩ := runList_inv rest t1 sF hns hrun
    obtain ⟨e', hE, hD, -⟩ := hpres 0 _ hent1
    rw [hE] at h0
    injection h0 with h0
    rw [h0] at hD
    exact hD
  · intro pre n post hrest hopen e hE hsd
    subst hrest
    rw [noStart_append, Bool.and_eq_true] at hns
    obtain ⟨hpre, hns2⟩ := hns
    rw [noStart_cons, Bool.and_eq_true] at hns2
    obtain ⟨hnn, hpost⟩ := hns2
    rw [runList_append] at hrun
    cases hmid : runList t1 pre with
    | none =>
      rw [hmid] at hrun
      exact absurd hrun (by simp)
    | some tmid =>
      rw [hmid] at hrun
      replace hrun : runList tmid (n :: post) = some sF := hrun
      simp only [runList] at hrun
      cases hstep : stepN tmid n with
      | none =>
        rw [hstep] at hrun
        exact absurd hrun (by simp)
      | some tnext =>
        rw [hstep] at hrun
        obtain ⟨m1, m2, m3, -⟩ := runList_inv pre t1 tmid hpre hmid
        rw [hlen1] at m1
        rw [hsl1] at m2
        have hdm : tmid.depth = (tmid.stack.length : Int) - 1 := m3 hd1
        cases n with
        | onStart f To pc' cr' inp' g' v' cd' => simp [isStart] at hnn
        | onExit out g' err => simp [isOpen] at hopen
        | onEnd out g' err => simp [isOpen] at hopen
        | onEnter typ f To pc' cr' inp' g' v' cd' =>
          obtain ⟨n1, n2, n3, n4, n5, n6⟩ :=
            CaptureEnter_effects tmid typ f To pc' cr' inp' g' v' cd'
              tnext hstep
          obtain ⟨eNew, hNew⟩ := n6
          obtain ⟨-, -, -, ppres⟩ :=
            runList_inv post tnext sF hpost hrun
          obtain ⟨e'', hFin, hD'', hT''⟩ :=
            ppres tmid.entries.length eNew hNew
          rw [m1] at hFin
          rw [hFin] at hE
          injection hE with hE
          subst hE
          have hDepth : eNew.Depth = tmid.depth + 1 := by
            apply n5 eNew hNew
            rw [← hT'']
            exact hsd
          rw [hD'', hDepth, hdm, m2]
          push_cast
          ring

/-- Witness for C5 amended on the stream `onStart`, `onEnter(CALL)`,
`onExit([4])`, `onEnd([])`: the start entry has depth `0` and the enter
entry has depth `1` = opens minus closes before it. -/
theorem claim_C5_amended_witness :
    (⟨"CALL", 0, 10, 11, some 0, some [], some []⟩ : TraceEntry).Depth = 0 ∧
    (⟨"CALL", 1, 11, 12, some 0, some [], some [4]⟩ : TraceEntry).Depth =
      (1 + countOpens ([] : List Notification) : Int) -
        countCloses ([] : List Notification) :=
  ⟨(claim_C5_amended 10 11 false false [] 0 none []
      [Notification.onEnter vm.CALL 11 12 false false [] 0 none [],
       Notification.onExit [4] 0 none, Notification.onEnd [] 0 none]
      (by decide)
      ⟨[⟨"CALL", 0, 10, 11, some 0, some [], some []⟩,
        ⟨"CALL", 1, 11, 12, some 0, some [], some [4]⟩], [0, 1], -1, []⟩
      (by decide) ⟨"CALL", 0, 10, 11, some 0, some [], some []⟩
      (by decide)).1,
   (claim_C5_amended 10 11 false false [] 0 none []
      [Notification.onEnter vm.CALL 11 12 false false [] 0 none [],
       Notification.onExit [4] 0 none, Notification.onEnd [] 0 none]
      (by decide)
      ⟨[⟨"CALL", 0, 10, 11, some 0, some [], some []⟩,
        ⟨"CALL", 1, 11, 12, some 0, some [], some [4]⟩], [0, 1], -1, []⟩
      (by decide) ⟨"CALL", 0, 10, 11, some 0, some [], some []⟩
      (by decide)).2
     [] (Notification.onEnter vm.CALL 11 12 false false [] 0 none [])
     [Notification.onExit [4] 0 none, Notification.onEnd [] 0 none] rfl rfl
     ⟨"CALL", 1, 11, 12, some 0, some [], some [4]⟩ (by decide) (by decide)⟩

/-- C5 counterexample: the claim says the depth recorded in *each* entry
produced by on-start or on-enter equals the number of enter-notifications
still open at its emission.  In the well-formed (strictly nested,
balanced) stream `onStart`, `onEnter(CALL)`, `onExit`,
`onEnter(SELFDESTRUCT)`, `onExit`, `onEnd`, the entry produced by the
`SELFDESTRUCT` enter (arena index `1 + countOpens pre` where `pre` is the
part of the stream after the start and before it) records depth `2` —
`lastVisible.Depth + 1` — while only `1` enter-notification is still open
at its emission (`(1 + countOpens pre) - countCloses pre = 1`). -/
theorem claim_C5_counterexample :
    (runList NewTransactionTracer
      [Notification.onStart 10 11 false false [] 0 none [],
       Notification.onEnter vm.CALL 11 12 false false [] 0 none [],
       Notification.onExit [] 0 none,
       Notification.onEnter vm.SELFDESTRUCT 12 13 false false [] 0
         (some 4) [],
       Notification.onExit [] 0 none,
       Notification.onEnd [] 0 none]).map
        (fun t => t.entries[1 + countOpens
          [Notification.onEnter vm.CALL 11 12 false false [] 0 none [],
           Notification.onExit [] 0 none]]?.map TraceEntry.Depth) =
      some (some 2) ∧
    (1 + countOpens
        [Notification.onEnter vm.CALL 11 12 false false [] 0 none [],
         Notification.onExit [] 0 none] : Int) -
      countCloses
        [Notification.onEnter vm.CALL 11 12 false false [] 0 none [],
         Notification.onExit [] 0 none] = 1 ∧
    (2 : Int) ≠ 1 := by
  refine ⟨by decide, by decide, by decide⟩
